import Mathlib

set_option maxHeartbeats 1000000

/-!
Shallow embedding of the token program under verification: the instruction
codec (src/token/src/instruction.rs), the error taxonomy
(src/token/src/error.rs), the account record layouts (declared as module
state in src/token/src/lib.rs; the file itself is absent from the sources,
so the records are modelled from the specification), the authority
validator and the state-transition handlers (src/token/src/processor.rs).
Theorems about the claims follow the definitions.
-/

/-- A 32-byte account identifier, modelled as its list of byte values. -/
abbrev Pubkey := List Nat

/-- Largest value representable in an unsigned 64-bit integer. -/
def U64_MAX : Nat := 18446744073709551615

/-- Model of Rust u64 checked_add: fails when the sum leaves the 64-bit range. -/
def checked_add (a b : Nat) : Option Nat :=
  if a + b ≤ U64_MAX then some (a + b) else none

/-- Model of Rust u64 checked_sub: fails when the subtraction would underflow. -/
def checked_sub (a b : Nat) : Option Nat :=
  if b ≤ a then some (a - b) else none

/-- Error taxonomy of src/token/src/error.rs. FixedSupply and MintCannotFreeze
are referenced by processor.rs although error.rs does not declare them; they
are included here as the fixed-supply and freeze-not-supported errors the
specification names. -/
inductive TokenError
  | NotRentExempt | InsufficientFunds | InvalidMint | MintMismatch | OwnerMismatch
  | NativeNotSupported | NonNativeHashBalance | InvalidInstruction | Overflow
  | AuthorityTypeNotSupported | AccountFrozen | MintDecimalsMismatch
  | FixedSupply | MintCannotFreeze
deriving DecidableEq

/-- Host-level program errors used by the source. -/
inductive ProgramError
  | Custom (e : TokenError)
  | MissingRequiredSignature
  | InvalidArgument
  | InvalidAccountData
  | UninitializedAccount
  | NotEnoughAccountKeys
  | IncorrectProgramId
deriving DecidableEq

deriving instance DecidableEq for Except

/-- Authority type for the SetAuthority instruction. -/
inductive AuthorityType
  | MintTokens | FreezeAccount | AccountOwner | CloseAccount
deriving DecidableEq

/-- Instructions supported by the token program. -/
inductive TokenInstruction
  | InitializeMint (decimals : Nat) (mint_authority : Pubkey) (freeze_authority : Option Pubkey)
  | InitializeAccount
  | InitializeMultisig (m : Nat)
  | Transfer (amount : Nat)
  | Approve (amount : Nat)
  | Revoke
  | SetAuthority (authority_type : AuthorityType) (new_authority : Option Pubkey)
  | MintTo (amount : Nat)
  | Burn (amount : Nat)
  | CloseAccount
  | InitializeAccount2 (owner : Pubkey)
  | InitializeMultisig2 (m : Nat)
  | InitializeMint2 (decimals : Nat) (mint_authority : Pubkey) (freeze_authority : Option Pubkey)
deriving DecidableEq

namespace TokenInstruction

/-- unpack_pubkey: consumes 32 bytes as a key, else InvalidInstruction. -/
def unpack_pubkey (input : List Nat) : Except ProgramError (Pubkey × List Nat) :=
  if 32 ≤ input.length then .ok (input.take 32, input.drop 32)
  else .error (.Custom .InvalidInstruction)

/-- unpack_pubkey_option: a leading 0 byte means absent, a leading 1 byte
followed by at least 32 bytes means present; anything else fails. -/
def unpack_pubkey_option (input : List Nat) : Except ProgramError (Option Pubkey × List Nat) :=
  match input with
  | 0 :: rest => .ok (none, rest)
  | 1 :: rest =>
    if 32 ≤ rest.length then .ok (some (rest.take 32), rest.drop 32)
    else .error (.Custom .InvalidInstruction)
  | _ => .error (.Custom .InvalidInstruction)

/-- pack_pubkey_option: the bytes the source appends for an optional key: a
present key is 1 followed by its 32 bytes; an absent key is the single
byte 0. -/
def pack_pubkey_option (value : Option Pubkey) : List Nat :=
  match value with
  | some key => 1 :: key
  | none => [0]

/-- TokenInstruction::unpack. Only the tag-0 (InitializeMint) arm exists in
the source; the arms for tags 1 and 2 are commented out and every other tag
falls through to InvalidInstruction. -/
def unpack (input : List Nat) : Except ProgramError TokenInstruction :=
  match input with
  | [] => .error (.Custom .InvalidInstruction)
  | tag :: rest =>
    match tag with
    | 0 =>
      match rest with
      | [] => .error (.Custom .InvalidInstruction)
      | decimals :: rest =>
        match unpack_pubkey rest with
        | .error e => .error e
        | .ok (mint_authority, rest) =>
          match unpack_pubkey_option rest with
          | .error e => .error e
          | .ok (freeze_authority, _rest) =>
            .ok (.InitializeMint decimals mint_authority freeze_authority)
    | _ => .error (.Custom .InvalidInstruction)

/-- Little-endian byte list of a u64 amount. -/
def u64_le_bytes (n : Nat) : List Nat :=
  [n % 256, n / 256 % 256, n / 256 ^ 2 % 256, n / 256 ^ 3 % 256,
   n / 256 ^ 4 % 256, n / 256 ^ 5 % 256, n / 256 ^ 6 % 256, n / 256 ^ 7 % 256]

/-- TokenInstruction::pack. The first five variants produce bytes; every
remaining reachable arm of the source match is a todo that aborts the
process, modelled as none. -/
def pack (self : TokenInstruction) : Option (List Nat) :=
  match self with
  | .InitializeMint decimals mint_authority freeze_authority =>
    some (0 :: decimals :: (mint_authority ++ pack_pubkey_option freeze_authority))
  | .InitializeAccount => some [1]
  | .InitializeMultisig m => some [2, m]
  | .Transfer amount => some (3 :: u64_le_bytes amount)
  | .Approve amount => some (4 :: u64_le_bytes amount)
  | .Revoke => none
  | .SetAuthority _ _ => none
  | .MintTo _ => none
  | .Burn _ => none
  | .CloseAccount => none
  | .InitializeAccount2 _ => none
  | .InitializeMultisig2 _ => none
  | .InitializeMint2 _ _ _ => none

/-- Initialize-family test used by the entry-point claim: the six variants
whose handlers the dispatcher reaches without aborting. -/
def is_initialize_family (self : TokenInstruction) : Bool :=
  match self with
  | .InitializeMint _ _ _ => true
  | .InitializeAccount => true
  | .InitializeMultisig _ => true
  | .InitializeAccount2 _ => true
  | .InitializeMultisig2 _ => true
  | .InitializeMint2 _ _ _ => true
  | _ => false

end TokenInstruction

/-- C1: the codec round-trip fails on the code as written. Encoding
InitializeAccount yields the single byte 1, but decoding that buffer
returns InvalidInstruction instead of the instruction back, and pack
aborts (its source arm is a todo) on Revoke, so decode is not an inverse
of encode for every variant. -/
theorem C1_roundtrip_fails_on_code :
    TokenInstruction.pack .InitializeAccount = some [1]
    ∧ TokenInstruction.unpack [1] = .error (.Custom .InvalidInstruction)
    ∧ TokenInstruction.pack .Revoke = none :=
  ⟨rfl, rfl, rfl⟩

/-- C2: decode does not accept tags 1 through 12. The source implements only
tag 0 and returns InvalidInstruction for buffers the claim says decode:
tag 1 (InitializeAccount), tag 5 (Revoke), tag 9 (CloseAccount), and tag 3
(Transfer) even with its full 8-byte amount present. -/
theorem C2_decode_rejects_documented_tags :
    TokenInstruction.unpack [1] = .error (.Custom .InvalidInstruction)
    ∧ TokenInstruction.unpack [5] = .error (.Custom .InvalidInstruction)
    ∧ TokenInstruction.unpack [9] = .error (.Custom .InvalidInstruction)
    ∧ TokenInstruction.unpack (3 :: TokenInstruction.u64_le_bytes 7)
        = .error (.Custom .InvalidInstruction) :=
  ⟨rfl, rfl, rfl, rfl⟩

/-- C7 counterexample: an absent optional key is encoded as the single byte
0, not as a presence flag followed by 32 zero-filled bytes, and the decoder
does not consume 32 bytes after a 0 flag: it hands them back untouched as
the remainder. -/
theorem C7_cex :
    TokenInstruction.pack_pubkey_option none = [0]
    ∧ (TokenInstruction.pack_pubkey_option none).length = 1
    ∧ TokenInstruction.unpack_pubkey_option (0 :: List.replicate 32 0)
        = .ok (none, List.replicate 32 0) :=
  ⟨rfl, rfl, rfl⟩

/-- C7 amended: a present optional key is encoded as the flag byte 1 followed
by the 32 key bytes; an absent key is the single flag byte 0 with no
trailing zero bytes. Decoding accepts exactly these shapes: a 0 flag
yields the absent key and leaves the remainder untouched, a 1 flag needs at
least 32 further bytes which become the key, and every other flag byte or a
short buffer fails with InvalidInstruction. -/
theorem C7_option_codec (key : Pubkey) (rest : List Nat) (b : Nat) :
    TokenInstruction.pack_pubkey_option none = [0]
    ∧ TokenInstruction.pack_pubkey_option (some key) = 1 :: key
    ∧ TokenInstruction.unpack_pubkey_option (0 :: rest) = .ok (none, rest)
    ∧ (key.length = 32 →
        TokenInstruction.unpack_pubkey_option (1 :: (key ++ rest)) = .ok (some key, rest))
    ∧ (rest.length < 32 →
        TokenInstruction.unpack_pubkey_option (1 :: rest) = .error (.Custom .InvalidInstruction))
    ∧ (2 ≤ b →
        TokenInstruction.unpack_pubkey_option (b :: rest) = .error (.Custom .InvalidInstruction))
    ∧ TokenInstruction.unpack_pubkey_option [] = .error (.Custom .InvalidInstruction) := by
  refine ⟨rfl, rfl, rfl, ?_, ?_, ?_, rfl⟩
  · intro hk
    have hlen : 32 ≤ (key ++ rest).length := by
      simp [List.length_append, hk]
    have htake : (key ++ rest).take 32 = key := by
      rw [← hk]; exact List.take_left key rest
    have hdrop : (key ++ rest).drop 32 = rest := by
      rw [← hk]; exact List.drop_left key rest
    simp [TokenInstruction.unpack_pubkey_option, hlen, htake, hdrop, hk]
  · intro hlt
    simp [TokenInstruction.unpack_pubkey_option, Nat.not_le.mpr hlt]
  · intro hb
    obtain ⟨c, rfl⟩ : ∃ c, b = c + 2 := ⟨b - 2, by omega⟩
    rfl

/-- C7 witness: the amended codec shape evaluated at a concrete present key. -/
theorem C7_option_codec_witness :
    TokenInstruction.unpack_pubkey_option (1 :: (List.replicate 32 5 ++ [7]))
      = .ok (some (List.replicate 32 5), [7]) :=
  (C7_option_codec (List.replicate 32 5) [7] 2).2.2.2.1 (by simp)

/-- Modelled from the spec: the lifecycle state of a token account
(uninitialized, initialized or frozen). The file state.rs that declares it
is absent from the sources. -/
inductive AccountState
  | Uninitialized | Initialized | Frozen
deriving DecidableEq

/-- Modelled from the spec: a token account record (state.rs is absent):
mint identifier, owner, 64-bit amount, optional delegate, lifecycle state,
optional native marker mirroring a host balance, delegated amount and
optional close authority. -/
structure Account where
  mint : Pubkey
  owner : Pubkey
  amount : Nat
  delegate : Option Pubkey
  state : AccountState
  is_native : Option Nat
  delegated_amount : Nat
  close_authority : Option Pubkey
deriving DecidableEq

/-- Modelled from the spec: a mint record (state.rs is absent): optional mint
authority, 64-bit supply, decimals, initialization flag and optional freeze
authority. -/
structure Mint where
  mint_authority : Option Pubkey
  supply : Nat
  decimals : Nat
  is_initialized : Bool
  freeze_authority : Option Pubkey
deriving DecidableEq

/-- Modelled from the spec: a multisig record (state.rs is absent): threshold
m, signer count n, initialization flag and a fixed array of 11 signer
identifiers of which the first n are meaningful. -/
structure Multisig where
  m : Nat
  n : Nat
  is_initialized : Bool
  signers : List Pubkey
deriving DecidableEq

/-- Contents of an account's data buffer, in normal form: a buffer holding a
valid encoding of a record is represented by that record; any other buffer
is raw and carries only its length. -/
inductive AccData
  | tokenAcc (a : Account)
  | mintAcc (m : Mint)
  | msAcc (s : Multisig)
  | raw (len : Nat)
deriving DecidableEq

/-- Modelled from the spec: each record type has one fixed byte width.
The widths follow from the field lists: a mint is 82 bytes, a token account
165 bytes and a multisig 355 bytes. -/
def dataLen (d : AccData) : Nat :=
  match d with
  | .tokenAcc _ => 165
  | .mintAcc _ => 82
  | .msAcc _ => 355
  | .raw len => len

/-- Fixed width of a serialized token account. -/
def Account.get_packed_len : Nat := 165

/-- Fixed width of a serialized mint. -/
def Mint.get_packed_len : Nat := 82

/-- Fixed width of a serialized multisig. -/
def Multisig.get_packed_len : Nat := 355

/-- Account::is_frozen. -/
def Account.is_frozen (a : Account) : Bool :=
  match a.state with
  | .Frozen => true
  | _ => false

/-- Account::is_native as a predicate on the record (the source method;
the record field of the same name holds the optional marker). -/
def Account.is_native_acc (a : Account) : Bool :=
  a.is_native.isSome

/-- Modelled from the spec: Account::unpack succeeds exactly on a buffer of
the token-account width holding an initialized (or frozen) account record. -/
def Account.unpack (d : AccData) : Except ProgramError Account :=
  match d with
  | .tokenAcc a =>
    if a.state = .Uninitialized then .error .UninitializedAccount else .ok a
  | _ => .error .InvalidAccountData

/-- Modelled from the spec: Account::pack overwrites a buffer of the exact
token-account width with the record's encoding. -/
def Account.pack (a : Account) (d : AccData) : Except ProgramError AccData :=
  if dataLen d = Account.get_packed_len then .ok (.tokenAcc a)
  else .error .InvalidAccountData

/-- Modelled from the spec: Mint::unpack succeeds exactly on a buffer of the
mint width holding an initialized mint record. -/
def Mint.unpack (d : AccData) : Except ProgramError Mint :=
  match d with
  | .mintAcc m => if m.is_initialized then .ok m else .error .UninitializedAccount
  | _ => .error .InvalidAccountData

/-- Modelled from the spec: Mint::pack overwrites a buffer of the exact mint
width with the record's encoding. -/
def Mint.pack (m : Mint) (d : AccData) : Except ProgramError AccData :=
  if dataLen d = Mint.get_packed_len then .ok (.mintAcc m)
  else .error .InvalidAccountData

/-- Modelled from the spec: Multisig::unpack succeeds exactly on a buffer of
the multisig width holding an initialized multisig record. -/
def Multisig.unpack (d : AccData) : Except ProgramError Multisig :=
  match d with
  | .msAcc s => if s.is_initialized then .ok s else .error .UninitializedAccount
  | _ => .error .InvalidAccountData

/-- Host-supplied account handle: identifier, host-held balance, data buffer,
owning program and the host's authenticated-signer flag. -/
structure AccountInfo where
  key : Pubkey
  lamports : Nat
  data : AccData
  owner : Pubkey
  is_signer : Bool
deriving DecidableEq

namespace Processor

/-- Inner loop of validate_owner: one signer entry scanned over the multisig
slots (slot key paired with its matched flag). An entry matching a yet
unmatched slot must carry the signer flag, else the whole validation fails;
on a match the slot is marked and the counter grows. -/
def multisig_scan : List (Pubkey × Bool) → Pubkey → Bool →
    Except ProgramError (List (Pubkey × Bool) × Nat)
  | [], _, _ => .ok ([], 0)
  | (k, mtd) :: rest, key, flag =>
    if k = key ∧ mtd = false then
      if flag = false then .error .MissingRequiredSignature
      else
        match multisig_scan rest key flag with
        | .error e => .error e
        | .ok (rest2, c) => .ok ((k, true) :: rest2, c + 1)
    else
      match multisig_scan rest key flag with
      | .error e => .error e
      | .ok (rest2, c) => .ok ((k, mtd) :: rest2, c)

/-- Outer loop of validate_owner over the supplied signer entries,
threading the matched flags and the counter. -/
def multisig_loop : List (Pubkey × Bool) → Nat → List AccountInfo →
    Except ProgramError (List (Pubkey × Bool) × Nat)
  | slots, count, [] => .ok (slots, count)
  | slots, count, signer :: more =>
    match multisig_scan slots signer.key signer.is_signer with
    | .error e => .error e
    | .ok (slots2, c) => multisig_loop slots2 (count + c) more

/-- Processor::validate_owner. -/
def validate_owner (program_id : Pubkey) (expectted_owner : Pubkey)
    (owner_account_info : AccountInfo) (signers : List AccountInfo) :
    Except ProgramError Unit :=
  if expectted_owner ≠ owner_account_info.key then .error (.Custom .OwnerMismatch)
  else if program_id = owner_account_info.owner
      ∧ dataLen owner_account_info.data = Multisig.get_packed_len then
    match Multisig.unpack owner_account_info.data with
    | .error e => .error e
    | .ok multisig =>
      match multisig_loop
          ((multisig.signers.take multisig.n).map (fun k => (k, false))) 0 signers with
      | .error e => .error e
      | .ok (_, num_signers) =>
        if num_signers < multisig.m then .error .MissingRequiredSignature
        else .ok ()
  else if owner_account_info.is_signer = false then .error .MissingRequiredSignature
  else .ok ()

/-- Claim-side detector: scanning the signer entries in order while
remembering the keys of the entries already processed, some entry without
the authenticated-signer flag matches a multisig slot not matched before. -/
def has_unsigned_match (slots : List Pubkey) : List Pubkey → List AccountInfo → Bool
  | _, [] => false
  | seen, e :: rest =>
    if e.key ∈ slots ∧ e.key ∉ seen ∧ e.is_signer = false then true
    else has_unsigned_match slots (e.key :: seen) rest

/-- Claim-side count: multisig slots not already matched via the seen keys
whose key occurs among the signer entries. -/
def new_matches (slots seen : List Pubkey) (entries : List AccountInfo) : Nat :=
  slots.countP (fun s => decide (s ∉ seen) && entries.any (fun a => decide (a.key = s)))

/-- Claim-side count: distinct multisig slots whose key occurs among the
signer entries. -/
def matched_slot_count (slots : List Pubkey) (entries : List AccountInfo) : Nat :=
  slots.countP (fun s => entries.any (fun a => decide (a.key = s)))

lemma multisig_scan_no_unmatched (slots : List (Pubkey × Bool)) (key : Pubkey) (flag : Bool)
    (h : ∀ p ∈ slots, p.1 = key → p.2 = true) :
    multisig_scan slots key flag = .ok (slots, 0) := by
  induction slots with
  | nil => rfl
  | cons p rest ih =>
    obtain ⟨k, mtd⟩ := p
    have hcond : ¬(k = key ∧ mtd = false) := by
      rintro ⟨rfl, rfl⟩
      exact absurd (h (k, false) (List.mem_cons_self _ _) rfl) (by simp)
    simp only [multisig_scan]
    rw [if_neg hcond, ih (fun q hq hk => h q (List.mem_cons_of_mem _ hq) hk)]

lemma multisig_scan_unsigned (slots : List (Pubkey × Bool)) (key : Pubkey)
    (h : ∃ p ∈ slots, p.1 = key ∧ p.2 = false) :
    multisig_scan slots key false = .error .MissingRequiredSignature := by
  induction slots with
  | nil => simp at h
  | cons p rest ih =>
    obtain ⟨k, mtd⟩ := p
    by_cases hc : k = key ∧ mtd = false
    · simp [multisig_scan, hc]
    · have hr : ∃ q ∈ rest, q.1 = key ∧ q.2 = false := by
        obtain ⟨q, hq, hq1, hq2⟩ := h
        rcases List.mem_cons.mp hq with rfl | hq'
        · exact absurd ⟨hq1, hq2⟩ hc
        · exact ⟨q, hq', hq1, hq2⟩
      simp [multisig_scan, hc, ih hr]

lemma multisig_scan_signer (slots : List (Pubkey × Bool)) (key : Pubkey) :
    multisig_scan slots key true =
      .ok (slots.map (fun p => if p.1 = key then (p.1, true) else p),
           slots.countP (fun p => decide (p.1 = key) && !p.2)) := by
  induction slots with
  | nil => rfl
  | cons p rest ih =>
    obtain ⟨k, mtd⟩ := p
    by_cases hc : k = key ∧ mtd = false
    · obtain ⟨rfl, rfl⟩ := hc
      simp [multisig_scan, ih, List.countP_cons]
    · simp only [multisig_scan]
      rw [if_neg hc, ih]
      by_cases hk : k = key
      · have hm : mtd = true := by
          cases mtd
          · exact absurd ⟨hk, rfl⟩ hc
          · rfl
        subst hm; subst hk
        simp [List.countP_cons]
      · simp [hk, List.countP_cons]

lemma multisig_loop_unsigned (entries : List AccountInfo) :
    ∀ (orig seen : List Pubkey) (count : Nat),
      has_unsigned_match orig seen entries = true →
      multisig_loop (orig.map (fun s => (s, decide (s ∈ seen)))) count entries
        = .error .MissingRequiredSignature := by
  induction entries with
  | nil => intro orig seen count h; simp [has_unsigned_match] at h
  | cons e rest ih =>
    intro orig seen count h
    by_cases hc : e.key ∈ orig ∧ e.key ∉ seen ∧ e.is_signer = false
    · have hscan := multisig_scan_unsigned (orig.map (fun s => (s, decide (s ∈ seen)))) e.key
        ⟨(e.key, decide (e.key ∈ seen)), List.mem_map_of_mem _ hc.1, rfl, by simp [hc.2.1]⟩
      simp [multisig_loop, hc.2.2, hscan]
    · have h' : has_unsigned_match orig (e.key :: seen) rest = true := by
        rw [has_unsigned_match, if_neg hc] at h; exact h
      cases hsig : e.is_signer
      · have hnm : ∀ p ∈ orig.map (fun s => (s, decide (s ∈ seen))), p.1 = e.key → p.2 = true := by
          intro p hp hpk
          obtain ⟨s, hs, rfl⟩ := List.mem_map.mp hp
          simp only at hpk ⊢
          subst hpk
          have hmem : e.key ∈ seen := by
            by_contra hns
            exact hc ⟨hs, hns, hsig⟩
          simp [hmem]
        have hscan := multisig_scan_no_unmatched _ e.key false hnm
        have hmapeq : orig.map (fun s => (s, decide (s ∈ seen)))
            = orig.map (fun s => (s, decide (s ∈ e.key :: seen))) := by
          apply List.map_congr_left
          intro s hs
          by_cases hse : s = e.key
          · subst hse
            have hmem : e.key ∈ seen := by
              by_contra hns
              exact hc ⟨hs, hns, hsig⟩
            simp [List.mem_cons, hmem]
          · simp [List.mem_cons, hse]
        have hrec := ih orig (e.key :: seen) count h'
        rw [← hmapeq] at hrec
        simp only [multisig_loop, hsig, hscan, Nat.add_zero]
        exact hrec
      · have hscan := multisig_scan_signer (orig.map (fun s => (s, decide (s ∈ seen)))) e.key
        have hmark : (orig.map (fun s => (s, decide (s ∈ seen)))).map
              (fun p => if p.1 = e.key then (p.1, true) else p)
            = orig.map (fun s => (s, decide (s ∈ e.key :: seen))) := by
          rw [List.map_map]
          apply List.map_congr_left
          intro s _
          by_cases hse : s = e.key
          · subst hse; simp [List.mem_cons]
          · simp [List.mem_cons, hse]
        have hrec := ih orig (e.key :: seen)
          (count + (orig.map (fun s => (s, decide (s ∈ seen)))).countP
            (fun p => decide (p.1 = e.key) && !p.2)) h'
        rw [← hmark] at hrec
        simp only [multisig_loop, hsig, hscan]
        exact hrec

lemma count_split (orig : List Pubkey) (seen : List Pubkey) (ekey : Pubkey)
    (P : Pubkey → Bool) :
    orig.countP (fun s => decide (s ∉ seen) && (decide (ekey = s) || P s))
      = orig.countP (fun s => decide (s = ekey) && !decide (s ∈ seen))
        + orig.countP (fun s => decide (s ∉ ekey :: seen) && P s) := by
  induction orig with
  | nil => rfl
  | cons a rest ih =>
    rw [List.countP_cons, List.countP_cons, List.countP_cons, ih]
    by_cases hae : a = ekey
    · subst hae
      by_cases has : a ∈ seen
      · simp [has, List.mem_cons]
      · simp [has, List.mem_cons]
        omega
    · by_cases has : a ∈ seen
      · simp [hae, has, List.mem_cons, Ne.symm hae]
      · by_cases hP : P a
        · simp [hae, has, hP, List.mem_cons, Ne.symm hae]
          omega
        · simp [hae, has, hP, List.mem_cons, Ne.symm hae]

lemma multisig_loop_ok (entries : List AccountInfo) :
    ∀ (orig seen : List Pubkey) (count : Nat),
      has_unsigned_match orig seen entries = false →
      ∃ fin, multisig_loop (orig.map (fun s => (s, decide (s ∈ seen)))) count entries
        = .ok (fin, count + new_matches orig seen entries) := by
  induction entries with
  | nil =>
    intro orig seen count _
    refine ⟨orig.map (fun s => (s, decide (s ∈ seen))), ?_⟩
    simp [multisig_loop, new_matches]
  | cons e rest ih =>
    intro orig seen count h
    have hc : ¬(e.key ∈ orig ∧ e.key ∉ seen ∧ e.is_signer = false) := by
      intro hcc
      rw [has_unsigned_match, if_pos hcc] at h
      exact absurd h (by simp)
    have h' : has_unsigned_match orig (e.key :: seen) rest = false := by
      rw [has_unsigned_match, if_neg hc] at h; exact h
    have hsplit : new_matches orig seen (e :: rest)
        = orig.countP (fun s => decide (s = e.key) && !decide (s ∈ seen))
          + new_matches orig (e.key :: seen) rest := by
      unfold new_matches
      simp only [List.any_cons]
      exact count_split orig seen e.key (fun s => rest.any (fun a => decide (a.key = s)))
    cases hsig : e.is_signer
    · have hnm : ∀ p ∈ orig.map (fun s => (s, decide (s ∈ seen))), p.1 = e.key → p.2 = true := by
        intro p hp hpk
        obtain ⟨s, hs, rfl⟩ := List.mem_map.mp hp
        simp only at hpk ⊢
        subst hpk
        have hmem : e.key ∈ seen := by
          by_contra hns
          exact hc ⟨hs, hns, hsig⟩
        simp [hmem]
      have hscan := multisig_scan_no_unmatched _ e.key false hnm
      have hmapeq : orig.map (fun s => (s, decide (s ∈ seen)))
          = orig.map (fun s => (s, decide (s ∈ e.key :: seen))) := by
        apply List.map_congr_left
        intro s hs
        by_cases hse : s = e.key
        · subst hse
          have hmem : e.key ∈ seen := by
            by_contra hns
            exact hc ⟨hs, hns, hsig⟩
          simp [List.mem_cons, hmem]
        · simp [List.mem_cons, hse]
      have hzero : orig.countP (fun s => decide (s = e.key) && !decide (s ∈ seen)) = 0 := by
        rw [List.countP_eq_zero]
        intro s hs
        by_cases hse : s = e.key
        · subst hse
          have hmem : e.key ∈ seen := by
            by_contra hns
            exact hc ⟨hs, hns, hsig⟩
          simp [hmem]
        · simp [hse]
      obtain ⟨fin, hrec⟩ := ih orig (e.key :: seen) count h'
      rw [← hmapeq] at hrec
      refine ⟨fin, ?_⟩
      simp only [multisig_loop, hsig, hscan, Nat.add_zero]
      rw [hrec, hsplit, hzero, Nat.zero_add]
    · have hscan := multisig_scan_signer (orig.map (fun s => (s, decide (s ∈ seen)))) e.key
      have hmark : (orig.map (fun s => (s, decide (s ∈ seen)))).map
            (fun p => if p.1 = e.key then (p.1, true) else p)
          = orig.map (fun s => (s, decide (s ∈ e.key :: seen))) := by
        rw [List.map_map]
        apply List.map_congr_left
        intro s _
        by_cases hse : s = e.key
        · subst hse; simp [List.mem_cons]
        · simp [List.mem_cons, hse]
      have hcount : (orig.map (fun s => (s, decide (s ∈ seen)))).countP
            (fun p => decide (p.1 = e.key) && !p.2)
          = orig.countP (fun s => decide (s = e.key) && !decide (s ∈ seen)) := by
        rw [List.countP_map]
        rfl
      obtain ⟨fin, hrec⟩ := ih orig (e.key :: seen)
        (count + orig.countP (fun s => decide (s = e.key) && !decide (s ∈ seen))) h'
      rw [← hmark] at hrec
      refine ⟨fin, ?_⟩
      simp only [multisig_loop, hsig, hscan, hcount]
      rw [hrec, hsplit, Nat.add_assoc]

/-- Full characterization of validate_owner on the multisig branch: the
validation fails with MissingRequiredSignature exactly when some entry
without the authenticated-signer flag matches a yet unmatched slot or the
count of distinct matched slots stays below the threshold, and succeeds
otherwise. -/
lemma validate_owner_multisig (program_id expd : Pubkey) (info : AccountInfo)
    (entries : List AccountInfo) (ms : Multisig)
    (hkey : expd = info.key) (hown : program_id = info.owner)
    (hdata : info.data = .msAcc ms) (hinit : ms.is_initialized = true) :
    validate_owner program_id expd info entries =
      if has_unsigned_match (ms.signers.take ms.n) [] entries
      then .error .MissingRequiredSignature
      else if matched_slot_count (ms.signers.take ms.n) entries < ms.m
      then .error .MissingRequiredSignature
      else .ok () := by
  have hne : ¬expd ≠ info.key := by simp [hkey]
  have hstart : (ms.signers.take ms.n).map (fun k => (k, false))
      = (ms.signers.take ms.n).map (fun s => (s, decide (s ∈ ([] : List Pubkey)))) := by
    simp
  have hnm : new_matches (ms.signers.take ms.n) [] entries
      = matched_slot_count (ms.signers.take ms.n) entries := by
    unfold new_matches matched_slot_count
    apply List.countP_congr
    intro s _
    simp
  unfold validate_owner
  rw [if_neg hne, hdata]
  rw [if_pos ⟨hown, rfl⟩]
  simp only [Multisig.unpack, hinit, if_pos]
  cases hbad : has_unsigned_match (ms.signers.take ms.n) [] entries
  · obtain ⟨fin, hloop⟩ := multisig_loop_ok entries (ms.signers.take ms.n) [] 0 hbad
    rw [hstart, hloop]
    simp [Nat.zero_add, hnm]
  · have hloop := multisig_loop_unsigned entries (ms.signers.take ms.n) [] 0 hbad
    rw [hstart, hloop]
    simp

end Processor

namespace Processor

/-- Optional mint/decimals cross-check at the head of process_transfer: when
an expected mint account and decimals value are supplied, the source's mint
must equal that account's key and the unpacked mint's decimals must equal
the expected value. -/
def transfer_mint_check (source_account : Account)
    (expected_mint_info : Option (AccountInfo × Nat)) : Except ProgramError Unit :=
  match expected_mint_info with
  | none => .ok ()
  | some (mint_info, expected_decimals) =>
    if source_account.mint ≠ mint_info.key then .error (.Custom .MintMismatch)
    else
      match Mint.unpack mint_info.data with
      | .error e => .error e
      | .ok mint =>
        if expected_decimals ≠ mint.decimals then .error (.Custom .MintDecimalsMismatch)
        else .ok ()

/-- Delegate-or-owner authorization step of process_transfer: when the
authority is the source's delegate, validate it and require sufficient
delegated_amount, then (unless this is a self-transfer) decrement it,
clearing the delegate when it reaches zero; otherwise validate the owner. -/
def transfer_delegate_step (program_id : Pubkey) (source_account : Account)
    (self_transfer : Bool) (authority_info : AccountInfo)
    (signers : List AccountInfo) (amount : Nat) : Except ProgramError Account :=
  match source_account.delegate with
  | some delegate =>
    if authority_info.key = delegate then
      match validate_owner program_id delegate authority_info signers with
      | .error e => .error e
      | .ok _ =>
        if source_account.delegated_amount < amount then .error (.Custom .InsufficientFunds)
        else if self_transfer then .ok source_account
        else
          match checked_sub source_account.delegated_amount amount with
          | none => .error (.Custom .Overflow)
          | some nd =>
            if nd = 0 then
              .ok { source_account with delegated_amount := nd, delegate := none }
            else .ok { source_account with delegated_amount := nd }
    else
      match validate_owner program_id source_account.owner authority_info signers with
      | .error e => .error e
      | .ok _ => .ok source_account
  | none =>
    match validate_owner program_id source_account.owner authority_info signers with
    | .error e => .error e
    | .ok _ => .ok source_account

/-- Final write-back of process_transfer: pack the source record, then the
destination record, into their buffers. -/
def transfer_pack (source_account dest_account : Account)
    (source_account_info dest_account_info : AccountInfo) :
    Except ProgramError Unit × AccountInfo × AccountInfo :=
  match Account.pack source_account source_account_info.data with
  | .error e => (.error e, source_account_info, dest_account_info)
  | .ok d1 =>
    match Account.pack dest_account dest_account_info.data with
    | .error e => (.error e, { source_account_info with data := d1 }, dest_account_info)
    | .ok d2 =>
      (.ok (), { source_account_info with data := d1 }, { dest_account_info with data := d2 })

/-- Balance arithmetic and native mirroring of process_transfer, after
authorization and the self-transfer shortcut: overflow-checked debit and
credit of the record amounts and, for a native source, of the host-held
balances. The source's host balance is assigned before the destination's
credit is checked, so an overflow there returns with that debit already in
place, mirroring the source's write order. The source tests is_native on
the record after its amount update; the update leaves the native marker
unchanged, so the test reads the original record here. -/
def transfer_finish (source_account dest_account : Account)
    (source_account_info dest_account_info : AccountInfo) (amount : Nat) :
    Except ProgramError Unit × AccountInfo × AccountInfo :=
  match checked_sub source_account.amount amount with
  | none => (.error (.Custom .Overflow), source_account_info, dest_account_info)
  | some new_source_amount =>
    match checked_add dest_account.amount amount with
    | none => (.error (.Custom .Overflow), source_account_info, dest_account_info)
    | some new_dest_amount =>
      if source_account.is_native_acc then
        match checked_sub source_account_info.lamports amount with
        | none => (.error (.Custom .Overflow), source_account_info, dest_account_info)
        | some new_source_lamports =>
          match checked_add dest_account_info.lamports amount with
          | none =>
            (.error (.Custom .Overflow),
             { source_account_info with lamports := new_source_lamports },
             dest_account_info)
          | some new_dest_lamports =>
            transfer_pack { source_account with amount := new_source_amount }
              { dest_account with amount := new_dest_amount }
              { source_account_info with lamports := new_source_lamports }
              { dest_account_info with lamports := new_dest_lamports }
      else
        transfer_pack { source_account with amount := new_source_amount }
          { dest_account with amount := new_dest_amount }
          source_account_info dest_account_info

/-- Processor::process_transfer. The parameters name the accounts the source
draws from its iterator, in order: source, the optional expected mint with
its decimals, destination, authority, remaining signers. The result carries
the outcome together with the source and destination account states. -/
def process_transfer (program_id : Pubkey) (source_account_info : AccountInfo)
    (expected_mint_info : Option (AccountInfo × Nat))
    (dest_account_info authority_info : AccountInfo) (signers : List AccountInfo)
    (amount : Nat) : Except ProgramError Unit × AccountInfo × AccountInfo :=
  match Account.unpack source_account_info.data with
  | .error e => (.error e, source_account_info, dest_account_info)
  | .ok source_account =>
    match Account.unpack dest_account_info.data with
    | .error e => (.error e, source_account_info, dest_account_info)
    | .ok dest_account =>
      if source_account.is_frozen || dest_account.is_frozen then
        (.error (.Custom .AccountFrozen), source_account_info, dest_account_info)
      else if source_account.amount < amount then
        (.error (.Custom .InsufficientFunds), source_account_info, dest_account_info)
      else if source_account.mint ≠ dest_account.mint then
        (.error (.Custom .MintMismatch), source_account_info, dest_account_info)
      else
        match transfer_mint_check source_account expected_mint_info with
        | .error e => (.error e, source_account_info, dest_account_info)
        | .ok _ =>
          match transfer_delegate_step program_id source_account
              (decide (source_account_info.key = dest_account_info.key))
              authority_info signers amount with
          | .error e => (.error e, source_account_info, dest_account_info)
          | .ok source_account =>
            if source_account_info.key = dest_account_info.key then
              (.ok (), source_account_info, dest_account_info)
            else transfer_finish source_account dest_account
              source_account_info dest_account_info amount

/-- Optional decimals cross-check shared by MintTo and Burn. -/
def decimals_check (expected_decimals : Option Nat) (mint : Mint) :
    Except ProgramError Unit :=
  match expected_decimals with
  | some d => if d ≠ mint.decimals then .error (.Custom .MintDecimalsMismatch) else .ok ()
  | none => .ok ()

/-- Tail of process_mint_to after the destination checks: the mint authority
must be present (else FixedSupply) and authorize the call, then the
destination amount and the supply are credited with overflow checks and
written back, destination record first. -/
def mint_to_finish (program_id : Pubkey) (mint : Mint) (dest_account : Account)
    (mint_info dest_account_info owner_info : AccountInfo)
    (signers : List AccountInfo) (amount : Nat) :
    Except ProgramError Unit × AccountInfo × AccountInfo :=
  match mint.mint_authority with
  | some mint_authority =>
    match validate_owner program_id mint_authority owner_info signers with
    | .error e => (.error e, mint_info, dest_account_info)
    | .ok _ =>
      match checked_add dest_account.amount amount with
      | none => (.error (.Custom .Overflow), mint_info, dest_account_info)
      | some new_amount =>
        match checked_add mint.supply amount with
        | none => (.error (.Custom .Overflow), mint_info, dest_account_info)
        | some new_supply =>
          match Account.pack { dest_account with amount := new_amount }
              dest_account_info.data with
          | .error e => (.error e, mint_info, dest_account_info)
          | .ok dd =>
            match Mint.pack { mint with supply := new_supply } mint_info.data with
            | .error e => (.error e, mint_info, { dest_account_info with data := dd })
            | .ok md =>
              (.ok (), { mint_info with data := md }, { dest_account_info with data := dd })
  | none => (.error (.Custom .FixedSupply), mint_info, dest_account_info)

/-- Processor::process_mint_to. Parameters follow the iterator order of the
source: mint, destination, owner, remaining signers. The result carries the
outcome together with the mint and destination account states. -/
def process_mint_to (program_id : Pubkey)
    (mint_info dest_account_info owner_info : AccountInfo)
    (signers : List AccountInfo) (amount : Nat) (expected_decimals : Option Nat) :
    Except ProgramError Unit × AccountInfo × AccountInfo :=
  match Account.unpack dest_account_info.data with
  | .error e => (.error e, mint_info, dest_account_info)
  | .ok dest_account =>
    if dest_account.is_frozen then
      (.error (.Custom .AccountFrozen), mint_info, dest_account_info)
    else if dest_account.is_native_acc then
      (.error (.Custom .NativeNotSupported), mint_info, dest_account_info)
    else if mint_info.key ≠ dest_account.mint then
      (.error (.Custom .MintMismatch), mint_info, dest_account_info)
    else
      match Mint.unpack mint_info.data with
      | .error e => (.error e, mint_info, dest_account_info)
      | .ok mint =>
        match decimals_check expected_decimals mint with
        | .error e => (.error e, mint_info, dest_account_info)
        | .ok _ =>
          mint_to_finish program_id mint dest_account mint_info dest_account_info
            owner_info signers amount

/-- Delegate-or-owner authorization step of the burn handler; it mirrors the
transfer's delegate path but always performs the delegated decrement. -/
def burn_delegate_step (program_id : Pubkey) (source_account : Account)
    (authority_info : AccountInfo) (signers : List AccountInfo) (amount : Nat) :
    Except ProgramError Account :=
  match source_account.delegate with
  | some delegate =>
    if authority_info.key = delegate then
      match validate_owner program_id delegate authority_info signers with
      | .error e => .error e
      | .ok _ =>
        if source_account.delegated_amount < amount then .error (.Custom .InsufficientFunds)
        else
          match checked_sub source_account.delegated_amount amount with
          | none => .error (.Custom .Overflow)
          | some nd =>
            if nd = 0 then
              .ok { source_account with delegated_amount := nd, delegate := none }
            else .ok { source_account with delegated_amount := nd }
    else
      match validate_owner program_id source_account.owner authority_info signers with
      | .error e => .error e
      | .ok _ => .ok source_account
  | none =>
    match validate_owner program_id source_account.owner authority_info signers with
    | .error e => .error e
    | .ok _ => .ok source_account

/-- Processor::procee_burn (the burn handler, keeping the source's name).
Parameters follow the iterator order: source, mint, authority, remaining
signers. The result carries the outcome together with the source and mint
account states. -/
def procee_burn (program_id : Pubkey)
    (source_account_info mint_info authority_info : AccountInfo)
    (signers : List AccountInfo) (amount : Nat) (expected_decimals : Option Nat) :
    Except ProgramError Unit × AccountInfo × AccountInfo :=
  match Account.unpack source_account_info.data with
  | .error e => (.error e, source_account_info, mint_info)
  | .ok source_account =>
    match Mint.unpack mint_info.data with
    | .error e => (.error e, source_account_info, mint_info)
    | .ok mint =>
      if source_account.is_frozen then
        (.error (.Custom .AccountFrozen), source_account_info, mint_info)
      else if source_account.is_native_acc then
        (.error (.Custom .NativeNotSupported), source_account_info, mint_info)
      else if source_account.amount < amount then
        (.error (.Custom .InsufficientFunds), source_account_info, mint_info)
      else if mint_info.key ≠ source_account.mint then
        (.error (.Custom .MintMismatch), source_account_info, mint_info)
      else
        match decimals_check expected_decimals mint with
        | .error e => (.error e, source_account_info, mint_info)
        | .ok _ =>
          match burn_delegate_step program_id source_account authority_info signers amount with
          | .error e => (.error e, source_account_info, mint_info)
          | .ok source_account =>
            match checked_sub source_account.amount amount with
            | none => (.error (.Custom .Overflow), source_account_info, mint_info)
            | some new_amount =>
              match checked_sub mint.supply amount with
              | none => (.error (.Custom .Overflow), source_account_info, mint_info)
              | some new_supply =>
                match Account.pack { source_account with amount := new_amount }
                    source_account_info.data with
                | .error e => (.error e, source_account_info, mint_info)
                | .ok sd =>
                  match Mint.pack { mint with supply := new_supply } mint_info.data with
                  | .error e => (.error e, { source_account_info with data := sd }, mint_info)
                  | .ok md =>
                    (.ok (), { source_account_info with data := sd },
                     { mint_info with data := md })

/-- Token-account branch of process_set_authority. -/
def set_authority_account (program_id : Pubkey) (account : Account)
    (authority_info : AccountInfo) (signers : List AccountInfo)
    (authority_type : AuthorityType) (new_authority : Option Pubkey) :
    Except ProgramError Account :=
  match authority_type with
  | .AccountOwner =>
    match validate_owner program_id account.owner authority_info signers with
    | .error e => .error e
    | .ok _ =>
      match new_authority with
      | some authority =>
        let account :=
          { account with owner := authority, delegate := none, delegated_amount := 0 }
        if account.is_native_acc then .ok { account with close_authority := none }
        else .ok account
      | none => .error (.Custom .InvalidInstruction)
  | .CloseAccount =>
    let authority := account.close_authority.getD account.owner
    match validate_owner program_id authority authority_info signers with
    | .error e => .error e
    | .ok _ => .ok { account with close_authority := new_authority }
  | _ => .error (.Custom .AuthorityTypeNotSupported)

/-- Mint branch of process_set_authority. -/
def set_authority_mint (program_id : Pubkey) (mint : Mint)
    (authority_info : AccountInfo) (signers : List AccountInfo)
    (authority_type : AuthorityType) (new_authority : Option Pubkey) :
    Except ProgramError Mint :=
  match authority_type with
  | .MintTokens =>
    match mint.mint_authority with
    | none => .error (.Custom .FixedSupply)
    | some mint_authority =>
      match validate_owner program_id mint_authority authority_info signers with
      | .error e => .error e
      | .ok _ => .ok { mint with mint_authority := new_authority }
  | .FreezeAccount =>
    match mint.freeze_authority with
    | none => .error (.Custom .MintCannotFreeze)
    | some freeze_authority =>
      match validate_owner program_id freeze_authority authority_info signers with
      | .error e => .error e
      | .ok _ => .ok { mint with freeze_authority := new_authority }
  | _ => .error (.Custom .AuthorityTypeNotSupported)

/-- Processor::process_set_authority: the record kind is inferred from the
buffer width (token account, else mint, else invalid argument), the matching
branch authorizes and rewrites the authority, and the record is packed back
only on success. -/
def process_set_authority (program_id : Pubkey)
    (account_info authority_info : AccountInfo) (signers : List AccountInfo)
    (authority_type : AuthorityType) (new_authority : Option Pubkey) :
    Except ProgramError Unit × AccountInfo :=
  if dataLen account_info.data = Account.get_packed_len then
    match Account.unpack account_info.data with
    | .error e => (.error e, account_info)
    | .ok account =>
      if account.is_frozen then (.error (.Custom .AccountFrozen), account_info)
      else
        match set_authority_account program_id account authority_info signers
            authority_type new_authority with
        | .error e => (.error e, account_info)
        | .ok account2 =>
          match Account.pack account2 account_info.data with
          | .error e => (.error e, account_info)
          | .ok d => (.ok (), { account_info with data := d })
  else if dataLen account_info.data = Mint.get_packed_len then
    match Mint.unpack account_info.data with
    | .error e => (.error e, account_info)
    | .ok mint =>
      match set_authority_mint program_id mint authority_info signers
          authority_type new_authority with
      | .error e => (.error e, account_info)
      | .ok mint2 =>
        match Mint.pack mint2 account_info.data with
        | .error e => (.error e, account_info)
        | .ok d => (.ok (), { account_info with data := d })
  else (.error .InvalidArgument, account_info)

/-- Processor::_process_initialize_mint: an empty stub in the source that
returns success without touching any account. -/
def _process_initialize_mint (accounts : List AccountInfo) (decimals : Nat)
    (mint_authority : Pubkey) (freeze_authority : Option Pubkey)
    (rent_sysvar_account : Bool) : Except ProgramError Unit := .ok ()

/-- Processor::process_initialize_mint. -/
def process_initialize_mint (accounts : List AccountInfo) (decimals : Nat)
    (mint_authority : Pubkey) (freeze_authority : Option Pubkey) :
    Except ProgramError Unit :=
  _process_initialize_mint accounts decimals mint_authority freeze_authority true

/-- Processor::process_initialize_mint2. -/
def process_initialize_mint2 (accounts : List AccountInfo) (decimals : Nat)
    (mint_authority : Pubkey) (freeze_authority : Option Pubkey) :
    Except ProgramError Unit :=
  _process_initialize_mint accounts decimals mint_authority freeze_authority false

/-- Processor::_process_initialize_account: an empty stub in the source. -/
def _process_initialize_account (accounts : List AccountInfo) (owner : Option Pubkey)
    (rent_sysvar_account : Bool) : Except ProgramError Unit := .ok ()

/-- Processor::process_initialize_account. -/
def process_initialize_account (accounts : List AccountInfo) : Except ProgramError Unit :=
  _process_initialize_account accounts none true

/-- Processor::process_initialize_account2. -/
def process_initialize_account2 (accounts : List AccountInfo) (owner : Pubkey) :
    Except ProgramError Unit :=
  _process_initialize_account accounts (some owner) true

/-- Processor::_process_initialize_multisig: an empty stub in the source. -/
def _process_initialize_multisig (accounts : List AccountInfo) (m : Nat)
    (rent_sysvar_account : Bool) : Except ProgramError Unit := .ok ()

/-- Processor::process_initialize_multisig. -/
def process_initialize_multisig (accounts : List AccountInfo) (m : Nat) :
    Except ProgramError Unit :=
  _process_initialize_multisig accounts m true

/-- Processor::process_initialize_multisig2. -/
def process_initialize_multisig2 (accounts : List AccountInfo) (m : Nat) :
    Except ProgramError Unit :=
  _process_initialize_multisig accounts m false

/-- Outcome of one call to the entry point: success, an error returned to
the host, or an abort through a todo arm of the dispatcher. -/
inductive PResult
  | ok
  | err (e : ProgramError)
  | panicked
deriving DecidableEq

/-- Converts a handler result into an entry-point outcome. -/
def lift_result (r : Except ProgramError Unit) : PResult :=
  match r with
  | .ok _ => .ok
  | .error e => .err e

/-- Processor::process: unpack the instruction, then dispatch. The six
Initialize-family arms call their stub handlers; every other arm of the
source match is a todo that aborts. The account list is returned so the
theorems can speak about the state the call leaves behind. -/
def process (program_id : Pubkey) (accounts : List AccountInfo) (input : List Nat) :
    PResult × List AccountInfo :=
  match TokenInstruction.unpack input with
  | .error e => (.err e, accounts)
  | .ok instruction =>
    match instruction with
    | .InitializeMint decimals mint_authority freeze_authority =>
      (lift_result (process_initialize_mint accounts decimals mint_authority freeze_authority),
       accounts)
    | .InitializeMint2 decimals mint_authority freeze_authority =>
      (lift_result (process_initialize_mint2 accounts decimals mint_authority freeze_authority),
       accounts)
    | .InitializeAccount => (lift_result (process_initialize_account accounts), accounts)
    | .InitializeAccount2 owner =>
      (lift_result (process_initialize_account2 accounts owner), accounts)
    | .InitializeMultisig m => (lift_result (process_initialize_multisig accounts m), accounts)
    | .InitializeMultisig2 m => (lift_result (process_initialize_multisig accounts m), accounts)
    | .Transfer _ => (.panicked, accounts)
    | .Approve _ => (.panicked, accounts)
    | .Revoke => (.panicked, accounts)
    | .SetAuthority _ _ => (.panicked, accounts)
    | .MintTo _ => (.panicked, accounts)
    | .Burn _ => (.panicked, accounts)
    | .CloseAccount => (.panicked, accounts)

end Processor

/-- C5: for authorization against a multisig record with threshold m over n
signers, validate_owner succeeds exactly when no signer-list entry lacking
the authenticated-signer flag matches a yet unmatched slot and the number
of distinct multisig slots matched by the signer list is at least m
(duplicate entries for one slot count once, since the count ranges over
distinct slots); whenever it does not succeed it fails with
MissingRequiredSignature. The hypotheses place the call on the multisig
branch: the expected owner equals the record's key, the record is owned by
this program and holds an initialized multisig whose signer array has the
fixed capacity 11 with n at most that. -/
theorem C5_multisig_threshold (program_id expd : Pubkey) (info : AccountInfo)
    (entries : List AccountInfo) (ms : Multisig)
    (hkey : expd = info.key) (hown : program_id = info.owner)
    (hdata : info.data = .msAcc ms) (hinit : ms.is_initialized = true)
    (_hcap : ms.signers.length = 11) (_hn : ms.n ≤ 11) :
    (Processor.validate_owner program_id expd info entries = .ok ()
      ↔ Processor.has_unsigned_match (ms.signers.take ms.n) [] entries = false
        ∧ ms.m ≤ Processor.matched_slot_count (ms.signers.take ms.n) entries)
    ∧ (Processor.validate_owner program_id expd info entries ≠ .ok ()
      → Processor.validate_owner program_id expd info entries
          = .error .MissingRequiredSignature) := by
  have hch := Processor.validate_owner_multisig program_id expd info entries ms
    hkey hown hdata hinit
  rw [hch]
  by_cases hbad : Processor.has_unsigned_match (ms.signers.take ms.n) [] entries = true
  · simp [hbad]
  · have hb' : Processor.has_unsigned_match (ms.signers.take ms.n) [] entries = false := by
      simpa using hbad
    by_cases hm : Processor.matched_slot_count (ms.signers.take ms.n) entries < ms.m
    · simp [hb', hm, Nat.not_le.mpr hm]
    · simp [hb', hm, Nat.le_of_not_lt hm]

/-- Concrete program identifier for the validator examples. -/
def exProg : Pubkey := List.replicate 32 9

/-- Concrete multisig with threshold 1 over the two leading signer slots. -/
def exMs5 : Multisig :=
  { m := 1, n := 2, is_initialized := true,
    signers := [List.replicate 32 1, List.replicate 32 2] ++ List.replicate 9 (List.replicate 32 0) }

/-- Concrete program-owned multisig account holding exMs5. -/
def exInfo5 : AccountInfo :=
  { key := List.replicate 32 8, lamports := 0, data := .msAcc exMs5,
    owner := exProg, is_signer := false }

/-- Concrete authenticated signer entry matching the first slot of exMs5. -/
def exEntry5 : AccountInfo :=
  { key := List.replicate 32 1, lamports := 0, data := .raw 0,
    owner := exProg, is_signer := true }

/-- C5 witness: one authenticated signer matching one of two slots meets the
threshold 1, so the validation succeeds on this concrete multisig. -/
theorem C5_multisig_threshold_witness :
    Processor.validate_owner exProg exInfo5.key exInfo5 [exEntry5] = .ok () :=
  (C5_multisig_threshold exProg exInfo5.key exInfo5 [exEntry5] exMs5
    rfl rfl rfl rfl (by decide) (by decide)).1.mpr ⟨by decide, by decide⟩

/-- Concrete multisig with threshold 0 over one slot. -/
def exMs10 : Multisig :=
  { m := 0, n := 1, is_initialized := true,
    signers := List.replicate 11 (List.replicate 32 3) }

/-- Concrete program-owned multisig account holding exMs10. -/
def exInfo10 : AccountInfo :=
  { key := List.replicate 32 4, lamports := 0, data := .msAcc exMs10,
    owner := exProg, is_signer := false }

/-- Concrete unauthenticated entry whose key matches the slot of exMs10. -/
def exBad10 : AccountInfo :=
  { key := List.replicate 32 3, lamports := 0, data := .raw 0,
    owner := exProg, is_signer := false }

/-- C10 counterexample: on a program-owned record of the exact multisig width
whose stored threshold is 0, a signer list containing one entry that matches
a slot without the authenticated-signer flag makes validate_owner fail with
MissingRequiredSignature, so authorization does not succeed for every signer
list. -/
theorem C10_cex :
    exInfo10.owner = exProg
    ∧ dataLen exInfo10.data = Multisig.get_packed_len
    ∧ exMs10.m = 0
    ∧ Processor.validate_owner exProg exInfo10.key exInfo10 [exBad10]
        = .error .MissingRequiredSignature := by
  refine ⟨rfl, rfl, rfl, ?_⟩
  decide

/-- C10 amended: under the same hypotheses, and provided the expected owner
equals the record's key, authorization with a stored threshold of 0 succeeds
for every signer list in which no entry lacking the authenticated-signer
flag matches a yet unmatched slot; in particular it succeeds for the empty
signer list, and no entry is required to carry the flag for the threshold
itself. -/
theorem C10_zero_threshold (program_id expd : Pubkey) (info : AccountInfo)
    (entries : List AccountInfo) (ms : Multisig)
    (hkey : expd = info.key) (hown : program_id = info.owner)
    (hdata : info.data = .msAcc ms) (hinit : ms.is_initialized = true)
    (hm : ms.m = 0)
    (hclean : Processor.has_unsigned_match (ms.signers.take ms.n) [] entries = false) :
    Processor.validate_owner program_id expd info entries = .ok () := by
  rw [Processor.validate_owner_multisig program_id expd info entries ms hkey hown hdata hinit]
  simp [hclean, hm]

/-- C10 witness: the empty signer list authorizes against the concrete
threshold-0 multisig. -/
theorem C10_zero_threshold_witness :
    Processor.validate_owner exProg exInfo10.key exInfo10 [] = .ok () :=
  C10_zero_threshold exProg exInfo10.key exInfo10 [] exMs10 rfl rfl rfl rfl rfl (by decide)

lemma checked_sub_eq_some (a b n : Nat) (h : checked_sub a b = some n) :
    b ≤ a ∧ n = a - b := by
  unfold checked_sub at h
  split at h
  · rename_i hle
    injection h with h'
    exact ⟨hle, h'.symm⟩
  · simp at h

lemma checked_add_eq_some (a b n : Nat) (h : checked_add a b = some n) :
    a + b ≤ U64_MAX ∧ n = a + b := by
  unfold checked_add at h
  split at h
  · rename_i hle
    injection h with h'
    exact ⟨hle, h'.symm⟩
  · simp at h

lemma checked_sub_of_le (a b : Nat) (h : b ≤ a) : checked_sub a b = some (a - b) := by
  simp [checked_sub, h]

lemma checked_add_of_le (a b : Nat) (h : a + b ≤ U64_MAX) :
    checked_add a b = some (a + b) := by
  simp [checked_add, h]

lemma Account.unpack_ok_acc (d : AccData) (a : Account) (h : Account.unpack d = .ok a) :
    d = .tokenAcc a ∧ a.state ≠ .Uninitialized := by
  cases d with
  | tokenAcc a0 =>
    simp only [Account.unpack] at h
    split at h
    · simp at h
    · rename_i hstate
      injection h with h'
      subst h'
      exact ⟨rfl, hstate⟩
  | mintAcc m => simp [Account.unpack] at h
  | msAcc s => simp [Account.unpack] at h
  | raw n => simp [Account.unpack] at h

lemma Mint.unpack_ok_mint (d : AccData) (m : Mint) (h : Mint.unpack d = .ok m) :
    d = .mintAcc m ∧ m.is_initialized = true := by
  cases d with
  | mintAcc m0 =>
    simp only [Mint.unpack] at h
    split at h
    · rename_i hinit
      injection h with h'
      subst h'
      exact ⟨rfl, hinit⟩
    · simp at h
  | tokenAcc a => simp [Mint.unpack] at h
  | msAcc s => simp [Mint.unpack] at h
  | raw n => simp [Mint.unpack] at h

lemma Account.pack_tokenAcc (x a : Account) :
    Account.pack x (.tokenAcc a) = .ok (.tokenAcc x) := by
  simp [Account.pack, dataLen, Account.get_packed_len]

lemma Mint.pack_mintAcc (x m : Mint) :
    Mint.pack x (.mintAcc m) = .ok (.mintAcc x) := by
  simp [Mint.pack, dataLen, Mint.get_packed_len]

namespace Processor

lemma transfer_delegate_step_fields (program_id : Pubkey) (source_account : Account)
    (self_transfer : Bool) (authority_info : AccountInfo) (signers : List AccountInfo)
    (amount : Nat) (source_account1 : Account)
    (h : transfer_delegate_step program_id source_account self_transfer authority_info
        signers amount = .ok source_account1) :
    source_account1.amount = source_account.amount
    ∧ source_account1.is_native_acc = source_account.is_native_acc
    ∧ source_account1.state = source_account.state
    ∧ source_account1.mint = source_account.mint := by
  unfold transfer_delegate_step at h
  repeat' split at h
  all_goals try simp at h
  all_goals subst h
  all_goals exact ⟨rfl, rfl, rfl, rfl⟩

lemma transfer_pack_ok (source_account dest_account : Account) (sI dI : AccountInfo)
    (hs : dataLen sI.data = Account.get_packed_len)
    (hd : dataLen dI.data = Account.get_packed_len) :
    transfer_pack source_account dest_account sI dI
      = (.ok (), { sI with data := .tokenAcc source_account },
         { dI with data := .tokenAcc dest_account }) := by
  unfold transfer_pack Account.pack
  rw [hs, hd]
  simp

lemma transfer_finish_err (source_account dest_account : Account)
    (sI dI : AccountInfo) (amount : Nat) (e : ProgramError) (sI' dI' : AccountInfo)
    (hs : dataLen sI.data = Account.get_packed_len)
    (hd : dataLen dI.data = Account.get_packed_len)
    (h : transfer_finish source_account dest_account sI dI amount = (.error e, sI', dI')) :
    dI' = dI ∧ (sI' = sI ∨ (e = .Custom .Overflow
      ∧ sI' = { sI with lamports := sI.lamports - amount })) := by
  unfold transfer_finish at h
  split at h
  · simp only [Prod.mk.injEq] at h
    exact ⟨h.2.2.symm, Or.inl h.2.1.symm⟩
  · split at h
    · simp only [Prod.mk.injEq] at h
      exact ⟨h.2.2.symm, Or.inl h.2.1.symm⟩
    · split at h
      · split at h
        · simp only [Prod.mk.injEq] at h
          exact ⟨h.2.2.symm, Or.inl h.2.1.symm⟩
        · rename_i nsl hnsl
          split at h
          · simp only [Prod.mk.injEq, Except.error.injEq] at h
            obtain ⟨he, hsi, hdi⟩ := h
            obtain ⟨hle, hn⟩ := checked_sub_eq_some _ _ _ hnsl
            subst hn
            exact ⟨hdi.symm, Or.inr ⟨he.symm, hsi.symm⟩⟩
          · rename_i ndl hndl
            rw [transfer_pack_ok _ _ ({ sI with lamports := nsl })
              ({ dI with lamports := ndl }) hs hd] at h
            simp at h
      · rw [transfer_pack_ok _ _ _ _ hs hd] at h
        simp at h

lemma transfer_finish_ok (source_account dest_account : Account) (sI dI : AccountInfo)
    (amount : Nat)
    (hs : dataLen sI.data = Account.get_packed_len)
    (hd : dataLen dI.data = Account.get_packed_len)
    (hbal : amount ≤ source_account.amount)
    (hov : dest_account.amount + amount ≤ U64_MAX)
    (hnat : source_account.is_native_acc = true →
        amount ≤ sI.lamports ∧ dI.lamports + amount ≤ U64_MAX) :
    ∃ sI' dI', transfer_finish source_account dest_account sI dI amount = (.ok (), sI', dI')
      ∧ sI'.data = .tokenAcc { source_account with amount := source_account.amount - amount }
      ∧ dI'.data = .tokenAcc { dest_account with amount := dest_account.amount + amount } := by
  unfold transfer_finish
  cases hn : source_account.is_native_acc
  · refine ⟨{ sI with data := AccData.tokenAcc { source_account with amount := source_account.amount - amount } }, { dI with data := AccData.tokenAcc { dest_account with amount := dest_account.amount + amount } }, ?_, rfl, rfl⟩
    simp [checked_sub_of_le _ _ hbal, checked_add_of_le _ _ hov, hn,
      transfer_pack_ok _ _ _ _ hs hd]
  · obtain ⟨hl1, hl2⟩ := hnat hn
    refine ⟨{ sI with lamports := sI.lamports - amount, data := AccData.tokenAcc { source_account with amount := source_account.amount - amount } }, { dI with lamports := dI.lamports + amount, data := AccData.tokenAcc { dest_account with amount := dest_account.amount + amount } }, ?_, rfl, rfl⟩
    simp [checked_sub_of_le _ _ hbal, checked_add_of_le _ _ hov, hn,
      checked_sub_of_le _ _ hl1, checked_add_of_le _ _ hl2,
      transfer_pack_ok _ _ ({ sI with lamports := sI.lamports - amount })
        ({ dI with lamports := dI.lamports + amount }) hs hd]

lemma mint_to_finish_err (program_id : Pubkey) (mint : Mint) (dest_account : Account)
    (mI dI oI : AccountInfo) (sg : List AccountInfo) (amount : Nat) (e : ProgramError)
    (mI' dI' : AccountInfo)
    (hm : dataLen mI.data = Mint.get_packed_len)
    (hd : dataLen dI.data = Account.get_packed_len)
    (h : mint_to_finish program_id mint dest_account mI dI oI sg amount
        = (.error e, mI', dI')) :
    mI' = mI ∧ dI' = dI := by
  unfold mint_to_finish at h
  repeat' split at h
  all_goals try (simp only [Prod.mk.injEq] at h; exact ⟨h.2.1.symm, h.2.2.symm⟩)
  all_goals try simp at h
  all_goals rename_i e2 heq
  all_goals first
    | simp [Account.pack, hd] at heq
    | simp [Mint.pack, hm] at heq

lemma process_mint_to_err (program_id : Pubkey) (mI dI oI : AccountInfo)
    (sg : List AccountInfo) (amount : Nat) (expected_decimals : Option Nat)
    (e : ProgramError) (mI' dI' : AccountInfo)
    (h : process_mint_to program_id mI dI oI sg amount expected_decimals
        = (.error e, mI', dI')) :
    mI' = mI ∧ dI' = dI := by
  unfold process_mint_to at h
  split at h
  · simp only [Prod.mk.injEq] at h
    exact ⟨h.2.1.symm, h.2.2.symm⟩
  · rename_i dest_account hdu
    obtain ⟨hdd, _⟩ := Account.unpack_ok_acc _ _ hdu
    have hd : dataLen dI.data = Account.get_packed_len := by rw [hdd]; rfl
    split at h
    · simp only [Prod.mk.injEq] at h
      exact ⟨h.2.1.symm, h.2.2.symm⟩
    · split at h
      · simp only [Prod.mk.injEq] at h
        exact ⟨h.2.1.symm, h.2.2.symm⟩
      · split at h
        · simp only [Prod.mk.injEq] at h
          exact ⟨h.2.1.symm, h.2.2.symm⟩
        · split at h
          · simp only [Prod.mk.injEq] at h
            exact ⟨h.2.1.symm, h.2.2.symm⟩
          · rename_i mint hmu
            obtain ⟨hmd, _⟩ := Mint.unpack_ok_mint _ _ hmu
            have hm : dataLen mI.data = Mint.get_packed_len := by rw [hmd]; rfl
            split at h
            · simp only [Prod.mk.injEq] at h
              exact ⟨h.2.1.symm, h.2.2.symm⟩
            · exact mint_to_finish_err _ _ _ _ _ _ _ _ _ _ _ hm hd h

lemma procee_burn_err (program_id : Pubkey) (sI mI aI : AccountInfo)
    (sg : List AccountInfo) (amount : Nat) (expected_decimals : Option Nat)
    (e : ProgramError) (sI' mI' : AccountInfo)
    (h : procee_burn program_id sI mI aI sg amount expected_decimals
        = (.error e, sI', mI')) :
    sI' = sI ∧ mI' = mI := by
  unfold procee_burn at h
  split at h
  · simp only [Prod.mk.injEq] at h
    exact ⟨h.2.1.symm, h.2.2.symm⟩
  · rename_i source_account hsu
    obtain ⟨hsd, _⟩ := Account.unpack_ok_acc _ _ hsu
    have hs : dataLen sI.data = Account.get_packed_len := by rw [hsd]; rfl
    split at h
    · simp only [Prod.mk.injEq] at h
      exact ⟨h.2.1.symm, h.2.2.symm⟩
    · rename_i mint hmu
      obtain ⟨hmd, _⟩ := Mint.unpack_ok_mint _ _ hmu
      have hm : dataLen mI.data = Mint.get_packed_len := by rw [hmd]; rfl
      repeat' split at h
      all_goals try (simp only [Prod.mk.injEq] at h; exact ⟨h.2.1.symm, h.2.2.symm⟩)
      all_goals try simp at h
      all_goals rename_i e2 heq
      all_goals first
        | simp [Account.pack, hs] at heq
        | simp [Mint.pack, hm] at heq

end Processor

namespace Processor

lemma process_transfer_err (program_id : Pubkey) (sI : AccountInfo)
    (em : Option (AccountInfo × Nat)) (dI aI : AccountInfo) (sg : List AccountInfo)
    (amount : Nat) (e : ProgramError) (sI' dI' : AccountInfo)
    (h : process_transfer program_id sI em dI aI sg amount = (.error e, sI', dI')) :
    dI' = dI ∧ (sI' = sI ∨ (e = .Custom .Overflow
      ∧ sI' = { sI with lamports := sI.lamports - amount })) := by
  unfold process_transfer at h
  split at h
  · simp only [Prod.mk.injEq] at h
    exact ⟨h.2.2.symm, Or.inl h.2.1.symm⟩
  · rename_i source_account hsu
    obtain ⟨hsd, _⟩ := Account.unpack_ok_acc _ _ hsu
    have hs : dataLen sI.data = Account.get_packed_len := by rw [hsd]; rfl
    split at h
    · simp only [Prod.mk.injEq] at h
      exact ⟨h.2.2.symm, Or.inl h.2.1.symm⟩
    · rename_i dest_account hdu
      obtain ⟨hdd, _⟩ := Account.unpack_ok_acc _ _ hdu
      have hd : dataLen dI.data = Account.get_packed_len := by rw [hdd]; rfl
      repeat' split at h
      all_goals try (simp only [Prod.mk.injEq] at h; exact ⟨h.2.2.symm, Or.inl h.2.1.symm⟩)
      all_goals exact transfer_finish_err _ _ _ _ _ _ _ _ hs hd h

lemma process_mint_to_fixed_aux (program_id : Pubkey) (mI dI oI : AccountInfo)
    (sg : List AccountInfo) (amount : Nat) (expected_decimals : Option Nat)
    (mint : Mint) (u : Unit) (x y : AccountInfo)
    (hmu : Mint.unpack mI.data = .ok mint) (hma : mint.mint_authority = none)
    (h : process_mint_to program_id mI dI oI sg amount expected_decimals = (.ok u, x, y)) :
    False := by
  unfold process_mint_to mint_to_finish at h
  repeat' split at h
  all_goals simp_all

end Processor

/-- Concrete owner key for the processor examples. -/
def exOwner : Pubkey := List.replicate 32 6

/-- Concrete mint key for the processor examples. -/
def exMintKey : Pubkey := List.replicate 32 7

/-- Concrete single-key authority account: the owner key, authenticated. -/
def exAuth : AccountInfo :=
  { key := exOwner, lamports := 0, data := .raw 0, owner := exProg, is_signer := true }

/-- Concrete wrapped-native source record with balance 5. -/
def exSrcN : Account :=
  { mint := exMintKey, owner := exOwner, amount := 5, delegate := none,
    state := .Initialized, is_native := some 0, delegated_amount := 0,
    close_authority := none }

/-- Concrete wrapped-native destination record with balance 0. -/
def exDstN : Account :=
  { mint := exMintKey, owner := exOwner, amount := 0, delegate := none,
    state := .Initialized, is_native := some 0, delegated_amount := 0,
    close_authority := none }

/-- Host account for exSrcN with 10 lamports. -/
def exSrcNI : AccountInfo :=
  { key := List.replicate 32 12, lamports := 10, data := .tokenAcc exSrcN,
    owner := exProg, is_signer := false }

/-- Host account for exDstN whose host balance sits at the 64-bit maximum. -/
def exDstNI : AccountInfo :=
  { key := List.replicate 32 13, lamports := U64_MAX, data := .tokenAcc exDstN,
    owner := exProg, is_signer := false }

/-- C4 counterexample: a wrapped-native transfer of 1 whose destination host
balance would overflow fails with Overflow after the source's host balance
has already been debited from 10 to 9: the failed call does not leave every
touched host-held balance unchanged. -/
theorem C4_cex :
    Processor.process_transfer exProg exSrcNI none exDstNI exAuth [] 1
      = (.error (.Custom .Overflow), { exSrcNI with lamports := 9 }, exDstNI)
    ∧ ({ exSrcNI with lamports := 9 } : AccountInfo) ≠ exSrcNI := by
  refine ⟨by decide, by decide⟩

/-- C4 amended: a failing MintTo or Burn leaves both touched accounts exactly
as they were; a failing Transfer leaves the destination account and every
record buffer unchanged, and leaves the source account unchanged except in
one case: a wrapped-native transfer that fails with Overflow while crediting
the destination's host balance leaves the source's host balance already
debited by the amount (its record buffer still untouched). -/
theorem C4_atomicity :
    (∀ program_id mint_info dest_account_info owner_info signers amount
        expected_decimals e mI' dI',
      Processor.process_mint_to program_id mint_info dest_account_info owner_info signers
          amount expected_decimals = (.error e, mI', dI')
        → mI' = mint_info ∧ dI' = dest_account_info)
    ∧ (∀ program_id source_account_info mint_info authority_info signers amount
        expected_decimals e sI' mI',
      Processor.procee_burn program_id source_account_info mint_info authority_info signers
          amount expected_decimals = (.error e, sI', mI')
        → sI' = source_account_info ∧ mI' = mint_info)
    ∧ (∀ program_id source_account_info expected_mint_info dest_account_info authority_info
        signers amount e sI' dI',
      Processor.process_transfer program_id source_account_info expected_mint_info
          dest_account_info authority_info signers amount = (.error e, sI', dI')
        → dI' = dest_account_info
          ∧ (sI' = source_account_info
            ∨ (e = .Custom .Overflow
              ∧ sI' = { source_account_info with
                  lamports := source_account_info.lamports - amount }))) := by
  refine ⟨?_, ?_, ?_⟩
  · intro pid mI dI oI sg amt ed e mI' dI' h
    exact Processor.process_mint_to_err pid mI dI oI sg amt ed e mI' dI' h
  · intro pid sI mI aI sg amt ed e sI' mI' h
    exact Processor.procee_burn_err pid sI mI aI sg amt ed e sI' mI' h
  · intro pid sI em dI aI sg amt e sI' dI' h
    exact Processor.process_transfer_err pid sI em dI aI sg amt e sI' dI' h

/-- C4 witness: a MintTo whose destination buffer does not hold a token
account fails and, by the atomicity theorem, returns both accounts
unchanged. -/
theorem C4_atomicity_witness :
    Processor.process_mint_to exProg exAuth exAuth exAuth [] 1 none
      = (.error .InvalidAccountData, exAuth, exAuth)
    ∧ (exAuth = exAuth ∧ exAuth = exAuth) :=
  ⟨by decide,
   C4_atomicity.1 exProg exAuth exAuth exAuth [] 1 none .InvalidAccountData exAuth exAuth
     (by decide)⟩

/-- Concrete non-native source record with balance 5. -/
def exSrcP : Account :=
  { mint := exMintKey, owner := exOwner, amount := 5, delegate := none,
    state := .Initialized, is_native := none, delegated_amount := 0,
    close_authority := none }

/-- Concrete destination record whose balance sits at the 64-bit maximum. -/
def exDstP : Account :=
  { mint := exMintKey, owner := exOwner, amount := U64_MAX, delegate := none,
    state := .Initialized, is_native := none, delegated_amount := 0,
    close_authority := none }

/-- Concrete destination record with balance 0. -/
def exDst0 : Account :=
  { mint := exMintKey, owner := exOwner, amount := 0, delegate := none,
    state := .Initialized, is_native := none, delegated_amount := 0,
    close_authority := none }

/-- Host account for exSrcP. -/
def exSrcPI : AccountInfo :=
  { key := List.replicate 32 14, lamports := 0, data := .tokenAcc exSrcP,
    owner := exProg, is_signer := false }

/-- Host account for exDstP. -/
def exDstPI : AccountInfo :=
  { key := List.replicate 32 15, lamports := 0, data := .tokenAcc exDstP,
    owner := exProg, is_signer := false }

/-- Host account for exDst0. -/
def exDst0I : AccountInfo :=
  { key := List.replicate 32 16, lamports := 0, data := .tokenAcc exDst0,
    owner := exProg, is_signer := false }

/-- C3 counterexample: a transfer of 1 between two distinct initialized,
unfrozen accounts of the same mint with sufficient source balance and
passing owner authorization does not debit and credit when the destination
balance sits at the 64-bit maximum: it fails with Overflow and leaves both
amounts unchanged. -/
theorem C3_cex :
    Processor.transfer_delegate_step exProg exSrcP false exAuth [] 1 = .ok exSrcP
    ∧ exSrcPI.key ≠ exDstPI.key
    ∧ Processor.process_transfer exProg exSrcPI none exDstPI exAuth [] 1
        = (.error (.Custom .Overflow), exSrcPI, exDstPI) := by
  refine ⟨by decide, by decide, by decide⟩

/-- C3 amended: for a Transfer of amount A between two distinct initialized,
unfrozen accounts of the same mint with sufficient source balance, passing
the optional mint cross-check and authorization, and whose credits stay in
the 64-bit range (the destination balance, and for a wrapped-native source
also the mirrored host balances), the operation succeeds, the source amount
decreases by exactly A, the destination amount increases by exactly A, and
their sum is unchanged. -/
theorem C3_transfer_conservation (program_id : Pubkey)
    (source_account_info dest_account_info authority_info : AccountInfo)
    (expected_mint_info : Option (AccountInfo × Nat)) (signers : List AccountInfo)
    (amount : Nat) (source_account dest_account source_account1 : Account)
    (hneq : source_account_info.key ≠ dest_account_info.key)
    (hsu : Account.unpack source_account_info.data = .ok source_account)
    (hdu : Account.unpack dest_account_info.data = .ok dest_account)
    (hsf : source_account.is_frozen = false) (hdf : dest_account.is_frozen = false)
    (hbal : amount ≤ source_account.amount)
    (hmint : source_account.mint = dest_account.mint)
    (hmc : Processor.transfer_mint_check source_account expected_mint_info = .ok ())
    (hauth : Processor.transfer_delegate_step program_id source_account false
        authority_info signers amount = .ok source_account1)
    (hov : dest_account.amount + amount ≤ U64_MAX)
    (hnat : source_account.is_native_acc = true →
        amount ≤ source_account_info.lamports
        ∧ dest_account_info.lamports + amount ≤ U64_MAX) :
    ∃ sI' dI' source_account2 dest_account2,
      Processor.process_transfer program_id source_account_info expected_mint_info
          dest_account_info authority_info signers amount = (.ok (), sI', dI')
      ∧ Account.unpack sI'.data = .ok source_account2
      ∧ Account.unpack dI'.data = .ok dest_account2
      ∧ source_account2.amount = source_account.amount - amount
      ∧ dest_account2.amount = dest_account.amount + amount
      ∧ source_account2.amount + dest_account2.amount
          = source_account.amount + dest_account.amount := by
  obtain ⟨hsd, hstate⟩ := Account.unpack_ok_acc _ _ hsu
  obtain ⟨hdd, hdstate⟩ := Account.unpack_ok_acc _ _ hdu
  have hs : dataLen source_account_info.data = Account.get_packed_len := by rw [hsd]; rfl
  have hd : dataLen dest_account_info.data = Account.get_packed_len := by rw [hdd]; rfl
  obtain ⟨hamt, hnative, hstate1, _⟩ :=
    Processor.transfer_delegate_step_fields _ _ _ _ _ _ _ hauth
  have hdec : decide (source_account_info.key = dest_account_info.key) = false :=
    decide_eq_false hneq
  obtain ⟨sI', dI', hfeq, hsdata, hddata⟩ :=
    Processor.transfer_finish_ok source_account1 dest_account source_account_info
      dest_account_info amount hs hd (by rw [hamt]; exact hbal) hov
      (by rw [hnative]; exact hnat)
  refine ⟨sI', dI',
    { source_account1 with amount := source_account1.amount - amount },
    { dest_account with amount := dest_account.amount + amount },
    ?_, ?_, ?_, ?_, rfl, ?_⟩
  · unfold Processor.process_transfer
    simp only [hsu, hdu, hsf, hdf, Bool.or_self, Bool.false_eq_true, if_false,
      if_neg (Nat.not_lt.mpr hbal),
      if_neg (show ¬source_account.mint ≠ dest_account.mint by simp [hmint]),
      hmc, hdec, hauth, if_neg hneq]
    exact hfeq
  · rw [hsdata]
    simp [Account.unpack, hstate1, hstate]
  · rw [hddata]
    simp [Account.unpack, hdstate]
  · simp [hamt]
  · simp only [hamt]
    omega

/-- C3 witness: a concrete transfer of 2 from a balance of 5 to a balance of
0 between distinct accounts succeeds and conserves the total. -/
theorem C3_transfer_conservation_witness :
    ∃ sI' dI' source_account2 dest_account2,
      Processor.process_transfer exProg exSrcPI none exDst0I exAuth [] 2
          = (.ok (), sI', dI')
      ∧ Account.unpack sI'.data = .ok source_account2
      ∧ Account.unpack dI'.data = .ok dest_account2
      ∧ source_account2.amount = exSrcP.amount - 2
      ∧ dest_account2.amount = exDst0.amount + 2
      ∧ source_account2.amount + dest_account2.amount
          = exSrcP.amount + exDst0.amount :=
  C3_transfer_conservation exProg exSrcPI exDst0I exAuth none [] 2 exSrcP exDst0 exSrcP
    (by decide) (by decide) (by decide) (by decide) (by decide) (by decide) (by decide)
    (by decide) (by decide) (by decide) (by decide)

/-- Concrete initialized, unfrozen account with balance 0 owned by exOwner. -/
def exAccSelf : Account :=
  { mint := exMintKey, owner := exOwner, amount := 0, delegate := none,
    state := .Initialized, is_native := none, delegated_amount := 0,
    close_authority := none }

/-- Host account for exAccSelf. -/
def exAccSelfI : AccountInfo :=
  { key := List.replicate 32 10, lamports := 0, data := .tokenAcc exAccSelf,
    owner := exProg, is_signer := false }

/-- C6 counterexample: a self-transfer whose amount (1) exceeds the account's
balance (0) does not return success even though the owner authorization
would pass: the balance check precedes the self-transfer shortcut and fails
with InsufficientFunds. The account is still left unchanged. -/
theorem C6_cex :
    Processor.validate_owner exProg exAccSelf.owner exAuth [] = .ok ()
    ∧ Processor.process_transfer exProg exAccSelfI none exAccSelfI exAuth [] 1
        = (.error (.Custom .InsufficientFunds), exAccSelfI, exAccSelfI) := by
  refine ⟨by decide, by decide⟩

/-- C6 amended: a transfer whose source and destination are the same account
never mutates that account - its balance, delegate and delegated_amount are
returned byte-for-byte unchanged whatever the outcome - and it returns
success provided the account is initialized and unfrozen, its balance and
(on the delegate path) its delegated_amount cover the requested amount, the
optional mint cross-check passes and the authorization check passes. -/
theorem C6_self_transfer (program_id : Pubkey) (acc authority_info : AccountInfo)
    (expected_mint_info : Option (AccountInfo × Nat)) (signers : List AccountInfo)
    (amount : Nat) :
    (Processor.process_transfer program_id acc expected_mint_info acc authority_info
        signers amount).2 = (acc, acc)
    ∧ (∀ source_account source_account1,
        Account.unpack acc.data = .ok source_account →
        source_account.is_frozen = false →
        amount ≤ source_account.amount →
        Processor.transfer_mint_check source_account expected_mint_info = .ok () →
        Processor.transfer_delegate_step program_id source_account true authority_info
            signers amount = .ok source_account1 →
        Processor.process_transfer program_id acc expected_mint_info acc authority_info
            signers amount = (.ok (), acc, acc)) := by
  constructor
  · unfold Processor.process_transfer
    repeat' split
    all_goals try rfl
    all_goals (rename_i hcon; exact absurd rfl hcon)
  · intro source_account source_account1 hunp hfroz hbal hmc hauth
    have hdec : decide (acc.key = acc.key) = true := by simp
    unfold Processor.process_transfer
    simp only [hunp, hfroz, Bool.or_self, Bool.false_eq_true, if_false,
      if_neg (Nat.not_lt.mpr hbal),
      if_neg (show ¬source_account.mint ≠ source_account.mint by simp),
      hmc, eq_self_iff_true, decide_True, if_true, hauth, if_pos rfl]

/-- C6 witness: a self-transfer of 0 on the concrete account succeeds and
leaves it unchanged. -/
theorem C6_self_transfer_witness :
    Processor.process_transfer exProg exAccSelfI none exAccSelfI exAuth [] 0
      = (.ok (), exAccSelfI, exAccSelfI) :=
  (C6_self_transfer exProg exAccSelfI exAuth none [] 0).2 exAccSelf exAccSelf
    (by decide) (by decide) (by decide) (by decide) (by decide)

/-- Concrete initialized mint whose mint authority has been cleared. -/
def exMintNoAuth : Mint :=
  { mint_authority := none, supply := 100, decimals := 2, is_initialized := true,
    freeze_authority := none }

/-- Host account holding exMintNoAuth. -/
def exMintNAI : AccountInfo :=
  { key := List.replicate 32 20, lamports := 0, data := .mintAcc exMintNoAuth,
    owner := exProg, is_signer := false }

/-- Concrete frozen destination account of the cleared mint. -/
def exDstFrozen : Account :=
  { mint := List.replicate 32 20, owner := exOwner, amount := 0, delegate := none,
    state := .Frozen, is_native := none, delegated_amount := 0, close_authority := none }

/-- Host account holding exDstFrozen. -/
def exDstFrozenI : AccountInfo :=
  { key := List.replicate 32 21, lamports := 0, data := .tokenAcc exDstFrozen,
    owner := exProg, is_signer := false }

/-- C8 counterexample: on a mint whose authority is cleared, a MintTo with a
frozen destination fails with AccountFrozen, not with the fixed-supply
error, so not every subsequent MintTo fails with the fixed-supply error as
the claim states. -/
theorem C8_cex :
    exMintNoAuth.mint_authority = none
    ∧ Processor.process_mint_to exProg exMintNAI exDstFrozenI exAuth [] 5 none
        = (.error (.Custom .AccountFrozen), exMintNAI, exDstFrozenI)
    ∧ (ProgramError.Custom .AccountFrozen ≠ ProgramError.Custom .FixedSupply) := by
  refine ⟨rfl, by decide, by decide⟩

/-- C8 amended: once a mint's authority is cleared, every subsequent MintTo
on that mint fails - with the fixed-supply error whenever its preliminary
destination checks pass - and every subsequent SetAuthority of type
MintTokens on it fails with the fixed-supply error; in each case the mint
and the destination are left unchanged, so the authority can never be
restored through these operations. -/
theorem C8_fixed_supply_permanent :
    (∀ program_id mint_info dest_account_info owner_info signers amount
        expected_decimals mint,
      Mint.unpack mint_info.data = .ok mint → mint.mint_authority = none →
      ∃ e, Processor.process_mint_to program_id mint_info dest_account_info owner_info
          signers amount expected_decimals = (.error e, mint_info, dest_account_info))
    ∧ (∀ program_id mint_info dest_account_info owner_info signers amount
        expected_decimals mint dest_account,
      Mint.unpack mint_info.data = .ok mint → mint.mint_authority = none →
      Account.unpack dest_account_info.data = .ok dest_account →
      dest_account.is_frozen = false → dest_account.is_native_acc = false →
      mint_info.key = dest_account.mint →
      Processor.decimals_check expected_decimals mint = .ok () →
      Processor.process_mint_to program_id mint_info dest_account_info owner_info
          signers amount expected_decimals
        = (.error (.Custom .FixedSupply), mint_info, dest_account_info))
    ∧ (∀ program_id account_info authority_info signers new_authority mint,
      Mint.unpack account_info.data = .ok mint → mint.mint_authority = none →
      Processor.process_set_authority program_id account_info authority_info signers
          .MintTokens new_authority
        = (.error (.Custom .FixedSupply), account_info)) := by
  refine ⟨?_, ?_, ?_⟩
  · intro pid mI dI oI sg amt ed mint hmu hma
    rcases hres : Processor.process_mint_to pid mI dI oI sg amt ed with ⟨r, mI', dI'⟩
    cases r with
    | ok u =>
      exact (Processor.process_mint_to_fixed_aux pid mI dI oI sg amt ed mint u mI' dI'
        hmu hma hres).elim
    | error e =>
      obtain ⟨h1, h2⟩ := Processor.process_mint_to_err pid mI dI oI sg amt ed e mI' dI' hres
      exact ⟨e, by rw [h1, h2]⟩
  · intro pid mI dI oI sg amt ed mint dest_account hmu hma hdu hfroz hnatv hkey hdc
    unfold Processor.process_mint_to Processor.mint_to_finish
    simp only [hdu, hfroz, hnatv, Bool.false_eq_true, if_false,
      if_neg (show ¬mI.key ≠ dest_account.mint by simp [hkey]),
      hmu, hdc, hma]
  · intro pid aI authI sg na mint hmu hma
    obtain ⟨hmd, hinit⟩ := Mint.unpack_ok_mint _ _ hmu
    unfold Processor.process_set_authority Processor.set_authority_mint
    simp [hmd, Mint.unpack, hinit, hma, dataLen, Account.get_packed_len,
      Mint.get_packed_len]

/-- C8 witness: SetAuthority(MintTokens) on the concrete cleared mint fails
with the fixed-supply error and leaves the mint untouched. -/
theorem C8_fixed_supply_permanent_witness :
    Processor.process_set_authority exProg exMintNAI exAuth [] .MintTokens (some exOwner)
      = (.error (.Custom .FixedSupply), exMintNAI) :=
  C8_fixed_supply_permanent.2.2 exProg exMintNAI exAuth [] (some exOwner) exMintNoAuth
    (by decide) (by decide)

/-- Every instruction the decoder can produce belongs to the
Initialize family: only the tag-0 arm of unpack returns success. -/
lemma TokenInstruction.unpack_ok_family (input : List Nat) (i : TokenInstruction)
    (h : TokenInstruction.unpack input = .ok i) : i.is_initialize_family = true := by
  unfold TokenInstruction.unpack at h
  repeat' split at h
  all_goals first
    | (injection h with h; subst h; rfl)
    | simp at h

/-- C9: for every program identifier, account list and instruction buffer,
the entry point process leaves the account list unchanged, never reaches a
todo arm of its dispatcher, and returns success exactly when the input
decodes to an Initialize-family instruction (whose handlers write nothing);
every other input yields an error. -/
theorem C9_entry_point (program_id : Pubkey) (accounts : List AccountInfo)
    (input : List Nat) :
    (Processor.process program_id accounts input).2 = accounts
    ∧ (Processor.process program_id accounts input).1 ≠ .panicked
    ∧ ((Processor.process program_id accounts input).1 = .ok
        ↔ ∃ i, TokenInstruction.unpack input = .ok i ∧ i.is_initialize_family = true) := by
  cases hu : TokenInstruction.unpack input with
  | error e => simp [Processor.process, hu]
  | ok i =>
    have hfam := TokenInstruction.unpack_ok_family input i hu
    cases i <;> simp_all [Processor.process, Processor.lift_result,
      Processor.process_initialize_mint, Processor.process_initialize_mint2,
      Processor.process_initialize_account, Processor.process_initialize_account2,
      Processor.process_initialize_multisig, Processor.process_initialize_multisig2,
      Processor._process_initialize_mint, Processor._process_initialize_account,
      Processor._process_initialize_multisig, TokenInstruction.is_initialize_family]

/-- C9 witness: a concrete rejected buffer leaves the result shy of the todo
arms, evaluated through the entry-point theorem. -/
theorem C9_entry_point_witness :
    (Processor.process exProg [] [1]).1 ≠ .panicked :=
  (C9_entry_point exProg [] [1]).2.1
